import Mathlib

/-!
Verification development for the dense-retrieval pipeline in
`dense_retrieval_faiss.py`.

The embedding is line-faithful to the source:

* `parseRecord`, `processFile`, `load_wikipedia_articles` embed the loader
  `load_wikipedia_articles` (source lines 26-100).  A file's content is
  modelled at the granularity the loader observes it: a list of lines, each
  either blank after stripping, failing JSON decoding, or a parsed JSON
  value (`Json`).  Python semantics are kept exactly: the inner handler
  catches only JSON-decode failures, so any other per-line exception
  (record is not a dict, `text` field not iterable, missing `title`)
  escapes to the per-file handler, which keeps the records already
  accumulated, abandons the rest of that file, and continues with the next
  file.

* `chunksOf`, `vstack`, `embedAll`, `buildIndexFromMatrix`, `buildAll`
  embed the `__main__` build pipeline (lines 129-173).  The embedding
  model is an explicit function argument; `np.vstack` on chunk outputs of
  unequal row width raises, modelled as `BuildError.dimMismatch`; the
  `exit()` calls on empty inputs are modelled as the remaining
  `BuildError` values.  Vector entries are exact integers standing in for
  the float coordinates used by the source; every scenario in the claims
  is integer-valued.

* `sqL2`, `searchIndex` embed the `faiss.IndexFlatL2` search used at line
  182: exact squared-L2 scan, `k` smallest distances ascending (ties by
  lower position), missing slots padded with label `-1` and `FLT_MAX`
  when `ntotal < k`.  `pyGet` and `queryLoop` embed the result-mapping
  loop (lines 185-192) with Python list-indexing semantics, including
  negative-index wraparound.
-/

/-- JSON values as produced by `json.loads` on one input line.  Numbers are
modelled as integers (no claim involves fractional literals). -/
inductive Json where
  | null
  | bool (b : Bool)
  | num (n : Int)
  | str (s : String)
  | arr (elems : List Json)
  | obj (fields : List (String × Json))

/-- Dictionary lookup, `doc.get(key)` / `doc[key]` on a parsed object. -/
def lookupField : List (String × Json) → String → Option Json
  | [], _ => none
  | (k, v) :: rest, key => if k = key then some v else lookupField rest key

/-- One line of an input file, as the loader's line loop observes it:
blank after `strip()`, a `json.loads` failure, or a parsed JSON value. -/
inductive SrcLine where
  | blank
  | malformed
  | record (j : Json)

/-- The normalized article dict appended at source lines 87-91. -/
structure Document where
  id : Json
  title : Json
  text : String

/-- Exceptions a single record can raise past the `json.JSONDecodeError`
handler: `doc.get` on a non-dict (`AttributeError`), iterating a
non-iterable `text` value (`TypeError`), `doc['title']` on a record
without a title (`KeyError`). -/
inductive LineError where
  | notObject
  | textNotIterable
  | missingTitle

/-- String elements of a nested list, `[s for s in item if isinstance(s, str)]`
(source line 81). -/
def strElems (inner : List Json) : List String :=
  inner.filterMap fun s => match s with | .str t => some t | _ => none

/-- The sentence list built by iterating `text_data` (source lines 78-83).
Python iteration semantics: a list yields its elements (nested lists are
flattened one level keeping strings, top-level strings kept, everything
else dropped); a string yields its characters, each a one-character
string; a dict yields its keys; numbers, booleans and `None` are not
iterable and raise. -/
def textSentences : Json → Except LineError (List String)
  | .arr items =>
      .ok ((items.map fun it =>
        match it with
        | .arr inner => strElems inner
        | .str s => [s]
        | _ => []).flatten)
  | .str s => .ok (s.data.map String.singleton)
  | .obj fields => .ok (fields.map (·.1))
  | _ => .error .textNotIterable

/-- Per-record normalization (source lines 77-91): flatten the `text`
field (default `[]`), join with single spaces, take `id` from the record
with the `title` value as default.  Evaluation order matches the source:
the `text` iteration happens before `doc['title']` is touched. -/
def parseRecord (j : Json) : Except LineError Document :=
  match j with
  | .obj fields =>
      match textSentences ((lookupField fields "text").getD (.arr [])) with
      | .error e => .error e
      | .ok sentences =>
          match lookupField fields "title" with
          | none => .error .missingTitle
          | some t => .ok ⟨(lookupField fields "id").getD t, t, String.intercalate " " sentences⟩
  | _ => .error .notObject

/-- Whether a line raises an exception that escapes the per-line
`json.JSONDecodeError` handler. -/
def lineAborts : SrcLine → Bool
  | .record j => match parseRecord j with | .error _ => true | .ok _ => false
  | _ => false

/-- The document a line contributes, if any. -/
def lineDoc : SrcLine → Option Document
  | .record j => match parseRecord j with | .ok d => some d | .error _ => none
  | _ => none

/-- The line loop over one file (source lines 70-94).  Blank lines and
JSON-decode failures are skipped; a record that raises any other
exception aborts the remainder of the file (the exception is caught by
the per-file handler at line 95), keeping the documents already
accumulated. -/
def processFile : List SrcLine → List Document
  | [] => []
  | .blank :: rest => processFile rest
  | .malformed :: rest => processFile rest
  | .record j :: rest =>
      match parseRecord j with
      | .ok d => d :: processFile rest
      | .error _ => []

/-- The loader over the collected candidate files (source lines 57-97):
`files_to_process.sort()` then the per-file loop, appending into one
article list.  `disk` maps a path to the line content read from it; path
collection by `os.walk` is abstracted as the input list, whose on-disk
enumeration order the sort makes irrelevant. -/
def load_wikipedia_articles (paths : List String) (disk : String → List SrcLine) :
    List Document :=
  ((List.insertionSort (· ≤ ·) paths).map fun p => processFile (disk p)).flatten

/-- Contiguous slices `texts[i:i+c]` for `i in range(0, len(texts), c)`,
written with explicit fuel so that it computes by kernel reduction; the
fuel is always started at `l.length`, which the step `drop c` (with
`c ≥ 1`) can never exhaust early. -/
def chunksOfAux (c : Nat) : List α → Nat → List (List α)
  | _, 0 => []
  | [], _ + 1 => []
  | l@(_ :: _), fuel + 1 => l.take c :: chunksOfAux c (l.drop c) fuel

/-- The chunking of the embedding loop (source lines 137-140).  `c = 0`
would make `range` raise in Python and is given the empty result. -/
def chunksOf (c : Nat) (l : List α) : List (List α) :=
  if c = 0 then [] else chunksOfAux c l l.length

/-- Failures of the build pipeline: the `exit()` taken when no chunk
embeddings exist (line 146), the `exit()` taken on a zero-row matrix
(line 157), and the `ValueError` that `np.vstack` raises on chunk
outputs of unequal row width (line 143) — the spec's
`DimensionMismatchError`. -/
inductive BuildError where
  | emptyEmbeddings
  | emptyMatrix
  | dimMismatch
deriving DecidableEq

/-- Whether all rows share one width, the shape condition `np.vstack`
checks across its inputs. -/
def uniformWidth : List (List Int) → Bool
  | [] => true
  | r :: rest => rest.all fun x => x.length == r.length

/-- Row-stacking of the per-chunk outputs, `np.vstack(all_embeddings)`
(source line 143). -/
def vstack (chunks : List (List (List Int))) : Except BuildError (List (List Int)) :=
  if uniformWidth chunks.flatten then .ok chunks.flatten else .error .dimMismatch

/-- The embedding loop plus stacking (source lines 134-147): chunk the
texts, call the embedding function once per chunk, and stack; the
`if all_embeddings:` guard exits when no chunk was produced. -/
def embedAll (texts : List String) (f : List String → List (List Int)) (c : Nat) :
    Except BuildError (List (List Int)) :=
  if ((chunksOf c texts).map f).isEmpty then .error .emptyEmbeddings
  else vstack ((chunksOf c texts).map f)

/-- The FAISS flat index as the pipeline uses it: the dimensionality
passed to `IndexFlatL2` and the stored vector rows, in insertion order. -/
structure BuiltIndex where
  dim : Nat
  vecs : List (List Int)
deriving DecidableEq

/-- Index construction (source lines 150-157): guard on
`corpus_embeddings.shape[0] > 0` (else `exit()`), dimension from
`shape[1]`, then `index.add(corpus_embeddings)`. -/
def buildIndexFromMatrix (m : List (List Int)) : Except BuildError BuiltIndex :=
  if 0 < m.length then .ok ⟨(m.headD []).length, m⟩ else .error .emptyMatrix

/-- The artifact bundle persisted at source lines 159-173: the FAISS
index (`write_index`), the id list (`json.dump`), and the embedding
matrix (`np.save`), exactly as held in memory at that point. -/
structure Artifacts where
  index : BuiltIndex
  ids : List Json
  matrix : List (List Int)

/-- The build pipeline from loaded articles to saved artifacts (source
lines 129-173): parallel `corpus_texts` / `corpus_ids` projections,
chunked embedding, index construction, and persistence of
(index, ids, matrix) as one bundle. -/
def buildAll (arts : List Document) (f : List String → List (List Int)) (c : Nat) :
    Except BuildError Artifacts :=
  match embedAll (arts.map (·.text)) f c with
  | .error e => .error e
  | .ok m =>
      match buildIndexFromMatrix m with
      | .error e => .error e
      | .ok idx => .ok ⟨idx, arts.map (·.id), m⟩

/-- Squared L2 distance, the metric of `IndexFlatL2` (no square root). -/
def sqL2 (q v : List Int) : Int :=
  (List.zipWith (fun a b => (a - b) * (a - b)) q v).sum

/-- Result ordering of the flat index: ascending distance, ties broken by
lower position. -/
def resOrder (a b : Int × Int) : Prop :=
  a.2 < b.2 ∨ (a.2 = b.2 ∧ a.1 ≤ b.1)

instance : DecidableRel resOrder := fun a b => by
  unfold resOrder
  infer_instance

/-- FLT_MAX, the distance FAISS reports in padding slots. -/
def fltMax : Int := 340282346638528859811704183484516925440

/-- `index.search` of the flat L2 index (source line 182): exact scan of
all stored vectors, the `k` smallest squared distances ascending with
their positions; when fewer than `k` vectors are stored the remaining
slots are padded with label `-1` and distance FLT_MAX. -/
def searchIndex (idx : BuiltIndex) (q : List Int) (k : Nat) : List (Int × Int) :=
  let scored := idx.vecs.enum.map fun p => ((p.1 : Int), sqL2 q p.2)
  (List.insertionSort resOrder scored).take k ++
    List.replicate (k - idx.vecs.length) ((-1 : Int), fltMax)

/-- Python list indexing `l[i]`: negative indices count from the end;
an index out of range on both sides raises (modelled as `none`, which
the call sites below never hit because FAISS labels are `-1` or valid). -/
def pyGet (l : List α) (i : Int) : Option α :=
  if 0 ≤ i then l[i.toNat]?
  else if (-i).toNat ≤ l.length then l[l.length - (-i).toNat]? else none

/-- The result-mapping loop (source lines 185-192): each returned
position `idx` passes the guard `idx < len(corpus_ids)` — which a `-1`
label also passes — and is then used to index `corpus_ids` with Python
semantics; positions failing the guard only print a warning and are
dropped. -/
def queryLoop (ids : List α) (results : List (Int × Int)) : List (α × Int) :=
  results.filterMap fun r =>
    if r.1 < (ids.length : Int) then (pyGet ids r.1).map fun a => (a, r.2) else none

/-- Helper count: documents one file contributes — valid records among the
lines before the file's first aborting line. -/
def fileDocCount (content : List SrcLine) : Nat :=
  (content.takeWhile fun l => !lineAborts l).countP fun l => (lineDoc l).isSome

theorem chunksOfAux_flatten (c : Nat) (hc : 0 < c) :
    ∀ (fuel : Nat) (l : List α), l.length ≤ fuel → (chunksOfAux c l fuel).flatten = l := by
  intro fuel
  induction fuel with
  | zero =>
      intro l hl
      have : l = [] := List.length_eq_zero.mp (Nat.le_zero.mp hl)
      subst this
      rfl
  | succ n ih =>
      intro l hl
      match l with
      | [] => rfl
      | a :: l' =>
          show (List.take c (a :: l') :: chunksOfAux c (List.drop c (a :: l')) n).flatten = a :: l'
          rw [List.flatten_cons, ih (List.drop c (a :: l'))]
          · exact List.take_append_drop c (a :: l')
          · rw [List.length_drop]
            simp only [List.length_cons] at hl ⊢
            omega

theorem chunksOf_flatten (c : Nat) (l : List α) (hc : 0 < c) :
    (chunksOf c l).flatten = l := by
  unfold chunksOf
  rw [if_neg hc.ne']
  exact chunksOfAux_flatten c hc l.length l le_rfl

theorem chunksOf_nil (c : Nat) : chunksOf c ([] : List α) = [] := by
  unfold chunksOf
  split <;> rfl

theorem chunksOf_ne_nil (c : Nat) (l : List α) (hc : 0 < c) (h : l ≠ []) :
    chunksOf c l ≠ [] := by
  unfold chunksOf
  rw [if_neg hc.ne']
  match l, h with
  | a :: l', _ =>
      simp [chunksOfAux]

theorem uniformWidth_len (rows : List (List Int)) (h : uniformWidth rows = true) :
    ∀ a ∈ rows, ∀ b ∈ rows, a.length = b.length := by
  match rows with
  | [] => simp
  | r :: rest =>
      simp only [uniformWidth, List.all_eq_true] at h
      have key : ∀ x ∈ r :: rest, x.length = r.length := by
        intro x hx
        rcases List.mem_cons.mp hx with rfl | hx
        · rfl
        · exact eq_of_beq (h x hx)
      intro a ha b hb
      rw [key a ha, key b hb]

theorem embedAll_pointwise (g : String → List Int) (f : List String → List (List Int))
    (texts : List String) (c : Nat) (hc : 0 < c) (hf : ∀ ts, f ts = ts.map g) :
    embedAll texts f c =
      if texts = [] then .error .emptyEmbeddings
      else if uniformWidth (texts.map g) then .ok (texts.map g)
      else .error .dimMismatch := by
  unfold embedAll
  have hmap : (chunksOf c texts).map f = (chunksOf c texts).map (List.map g) :=
    List.map_congr_left fun ch _ => hf ch
  rw [hmap]
  have hflat : ((chunksOf c texts).map (List.map g)).flatten = texts.map g := by
    rw [← List.map_flatten, chunksOf_flatten c texts hc]
  by_cases h : texts = []
  · subst h
    rw [if_pos rfl]
    simp [chunksOf_nil]
  · rw [if_neg h]
    have hne : chunksOf c texts ≠ [] := chunksOf_ne_nil c texts hc h
    have hemp : (((chunksOf c texts).map (List.map g)).isEmpty) = false := by
      simp only [List.isEmpty_eq_false, ne_eq, List.map_eq_nil_iff]
      exact hne
    rw [hemp]
    unfold vstack
    rw [hflat]
    rfl

theorem processFile_eq (content : List SrcLine) :
    processFile content = (content.takeWhile fun l => !lineAborts l).filterMap lineDoc := by
  induction content with
  | nil => rfl
  | cons l rest ih =>
      cases l with
      | blank => simp [processFile, List.takeWhile_cons, lineAborts, lineDoc, ih]
      | malformed => simp [processFile, List.takeWhile_cons, lineAborts, lineDoc, ih]
      | record j =>
          cases hp : parseRecord j with
          | ok d => simp [processFile, hp, List.takeWhile_cons, lineAborts, lineDoc, ih]
          | error e => simp [processFile, hp, List.takeWhile_cons, lineAborts, lineDoc]

theorem length_filterMap_eq (f : α → Option β) (l : List α) :
    (l.filterMap f).length = l.countP fun a => (f a).isSome := by
  induction l with
  | nil => rfl
  | cons a l ih =>
      rw [List.filterMap_cons, List.countP_cons]
      cases h : f a with
      | none => simp [h, ih]
      | some b => simp [h, ih]

theorem insertionSort_eq_of_perm (l₁ l₂ : List String) (h : l₁.Perm l₂) :
    List.insertionSort (· ≤ ·) l₁ = List.insertionSort (· ≤ ·) l₂ :=
  List.eq_of_perm_of_sorted
    (((List.perm_insertionSort _ l₁).trans h).trans (List.perm_insertionSort _ l₂).symm)
    (List.sorted_insertionSort _ l₁)
    (List.sorted_insertionSort _ l₂)

/-- Deterministic sample embedding used to instantiate general theorems:
each text maps to the fixed one-dimensional vector of its length. -/
def exG : String → List Int := fun s => [(s.length : Int)]

/-- The sample embedding lifted to batches, satisfying the shape contract. -/
def exF : List String → List (List Int) := fun ts => ts.map exG

/-- Sample two-document corpus. -/
def exArts : List Document := [⟨.str "a", .str "a", "x"⟩, ⟨.str "b", .str "b", "yz"⟩]

/-- The artifact bundle the pipeline produces on `exArts` with `exF`. -/
def exArtifacts : Artifacts := ⟨⟨1, [[1], [2]]⟩, [.str "a", .str "b"], [[1], [2]]⟩

/-- Sample two-file disk: path "a" holds one valid record, path "b" one
blank line. -/
def exDisk : String → List SrcLine :=
  fun p => if p = "a" then [.record (.obj [("title", .str "A")])] else [.blank]

/-- Claim C2: for the corpus with ids ["a","b","c"] and embeddings
[[0,0],[1,0],[5,5]], searching the built index with query [0,0] and k = 2
and mapping positions through the id list returns exactly
[("a", 0), ("b", 1)] — squared L2 distances, ascending. -/
theorem c2_three_doc_scenario :
    buildIndexFromMatrix [[0, 0], [1, 0], [5, 5]] = .ok ⟨2, [[0, 0], [1, 0], [5, 5]]⟩ ∧
    queryLoop ["a", "b", "c"] (searchIndex ⟨2, [[0, 0], [1, 0], [5, 5]]⟩ [0, 0] 2) =
      [("a", 0), ("b", 1)] :=
  ⟨rfl, by decide⟩

/-- Claim C5 counterexample: a file holding a parseable record without
`title` followed by a valid record yields NO documents — the valid record
after it is lost, because the `KeyError` escapes the per-line handler and
the per-file handler abandons the rest of the file.  The second conjunct
shows the second record is valid on its own. -/
theorem c5_skip_policy_cex :
    processFile [SrcLine.record (.obj [("text", .arr [.str "x"])]),
                 SrcLine.record (.obj [("title", .str "T")])] = [] ∧
    parseRecord (.obj [("title", .str "T")]) = .ok ⟨.str "T", .str "T", ""⟩ :=
  ⟨rfl, rfl⟩

/-- Claim C5 (amended): a parseable record lacking `title` raises past the
per-line handler; the per-file handler keeps the documents of the earlier
lines of that file, discards the failing record and every later line of
the same file, and raises nothing to the caller. -/
theorem c5_missing_title_aborts_file (pre rest : List SrcLine) (j : Json) (e : LineError)
    (hj : parseRecord j = .error e)
    (hpre : ∀ l ∈ pre, lineAborts l = false) :
    processFile (pre ++ SrcLine.record j :: rest) = pre.filterMap lineDoc := by
  induction pre with
  | nil => simp [processFile, hj]
  | cons l pre ih =>
      have hl := hpre l (List.mem_cons_self l pre)
      have hpre' : ∀ x ∈ pre, lineAborts x = false := fun x hx =>
        hpre x (List.mem_cons_of_mem l hx)
      cases l with
      | blank => simpa [processFile, lineDoc] using ih hpre'
      | malformed => simpa [processFile, lineDoc] using ih hpre'
      | record j' =>
          cases hp : parseRecord j' with
          | error e' => simp [lineAborts, hp] at hl
          | ok d => simp [processFile, hp, lineDoc, ih hpre']

/-- Claim C5 witness: a file with one valid record, then a title-less
record, then another valid record keeps exactly the first document. -/
theorem c5_missing_title_aborts_file_witness :
    parseRecord (.obj [("text", .arr [.str "x"])]) = .error .missingTitle ∧
    processFile ([SrcLine.record (.obj [("title", .str "A")])] ++
        SrcLine.record (.obj [("text", .arr [.str "x"])]) ::
          [SrcLine.record (.obj [("title", .str "B")])]) =
      [SrcLine.record (.obj [("title", .str "A")])].filterMap lineDoc :=
  ⟨rfl, c5_missing_title_aborts_file [SrcLine.record (.obj [("title", .str "A")])]
    [SrcLine.record (.obj [("title", .str "B")])] (.obj [("text", .arr [.str "x"])])
    .missingTitle rfl (by decide)⟩

/-- Claim C7: the flat index correctly signals missing slots with label
`-1` when `ntotal < k`, but the mapping loop does NOT omit them: the
guard `idx < len(corpus_ids)` passes for `-1`, and Python negative
indexing maps it to the LAST id, emitting a spurious result.  Here a
1-vector index queried with k = 2 returns ("a", 0) and then ("a",
FLT_MAX) — the no-result slot mapped to the only id instead of omitted. -/
theorem c7_no_result_slot_mapped :
    searchIndex ⟨2, [[0, 0]]⟩ [0, 0] 2 = [(0, 0), (-1, fltMax)] ∧
    queryLoop ["a"] (searchIndex ⟨2, [[0, 0]]⟩ [0, 0] 2) = [("a", 0), ("a", fltMax)] :=
  ⟨by decide, by decide⟩

/-- Claim C8 counterexample: with empty input texts the embedding stage
does not yield a zero-row matrix — the `if all_embeddings:` guard exits
the build; and a zero-row matrix does not produce an empty index — the
`shape[0] > 0` guard exits instead. -/
theorem c8_empty_corpus_cex :
    embedAll [] exF 1000 = .error .emptyEmbeddings ∧
    buildIndexFromMatrix [] = .error .emptyMatrix :=
  ⟨rfl, rfl⟩

/-- Claim C8 (amended): empty input texts produce no chunk embeddings and
the build aborts at the empty-embeddings guard before any matrix or
index exists; a zero-row matrix likewise aborts at the zero-row guard
instead of producing an empty index. -/
theorem c8_empty_corpus_aborts :
    (∀ f : List String → List (List Int), embedAll [] f 1000 = .error .emptyEmbeddings) ∧
    buildIndexFromMatrix [] = .error .emptyMatrix :=
  ⟨fun _ => rfl, rfl⟩

/-- Claim C9 counterexample: a record whose `title` is the empty string
survives parsing with an empty title — the loader never checks
non-emptiness. -/
theorem c9_empty_title_cex :
    parseRecord (.obj [("title", .str "")]) = .ok ⟨.str "", .str "", ""⟩ :=
  rfl

/-- Claim C9 (amended): every Document that survives parsing — whatever
its `text` field is — has a present `title` field (possibly empty), an
id equal to the record's `id` field when present else the record's
`title`, and a text formed by joining with single spaces the strings
obtained by iterating the `text` field keeping only string elements
(absent defaults to the empty list); in particular, when the `text`
field is a list, the text is its one-level flattening keeping only
string elements, joined with single spaces. -/
theorem c9_survivor_shape (fields : List (String × Json)) (d : Document)
    (h : parseRecord (.obj fields) = .ok d) :
    lookupField fields "title" = some d.title ∧
    d.id = (lookupField fields "id").getD d.title ∧
    (textSentences ((lookupField fields "text").getD (.arr []))).map
      (String.intercalate " ") = Except.ok d.text ∧
    ∀ items, lookupField fields "text" = some (.arr items) →
      d.text = String.intercalate " "
        ((items.map fun it =>
          match it with
          | .arr inner => strElems inner
          | .str s => [s]
          | _ => []).flatten) := by
  simp only [parseRecord] at h
  cases hs : textSentences ((lookupField fields "text").getD (.arr [])) with
  | error e => rw [hs] at h; exact absurd h (by simp)
  | ok sents =>
      rw [hs] at h
      cases hT : lookupField fields "title" with
      | none => rw [hT] at h; exact absurd h (by simp)
      | some t =>
          rw [hT] at h
          have := Except.ok.inj h
          subst this
          refine ⟨rfl, rfl, rfl, ?_⟩
          intro items hitems
          rw [hitems] at hs
          simp only [Option.getD_some, textSentences, Except.ok.injEq] at hs
          rw [hs]

/-- Claim C9 witness: a record with title "T" and a nested text list
survives; the title is present, the id defaults to the title, the joined
text is "x y", and the list-text clause gives the explicit one-level
flattening that keeps the strings "x" and "y" and drops the number. -/
theorem c9_survivor_shape_witness :
    parseRecord (.obj [("title", .str "T"), ("text", .arr [.str "x", .arr [.str "y", .num 3]])]) =
      .ok ⟨.str "T", .str "T", "x y"⟩ ∧
    lookupField [("title", .str "T"), ("text", .arr [.str "x", .arr [.str "y", .num 3]])] "title" =
      some (Json.str "T") ∧
    Json.str "T" = (lookupField [("title", .str "T"), ("text", .arr [.str "x", .arr [.str "y", .num 3]])] "id").getD (.str "T") ∧
    (textSentences ((lookupField [("title", .str "T"), ("text", .arr [.str "x", .arr [.str "y", .num 3]])] "text").getD (.arr []))).map
      (String.intercalate " ") = Except.ok "x y" ∧
    "x y" = String.intercalate " "
      (([Json.str "x", Json.arr [.str "y", .num 3]].map fun it =>
        match it with
        | .arr inner => strElems inner
        | .str s => [s]
        | _ => []).flatten) := by
  have h := c9_survivor_shape [("title", .str "T"), ("text", .arr [.str "x", .arr [.str "y", .num 3]])]
    ⟨.str "T", .str "T", "x y"⟩ rfl
  exact ⟨rfl, h.1, h.2.1, h.2.2.1, h.2.2.2 [.str "x", .arr [.str "y", .num 3]] rfl⟩

/-- Claim C10: a parseable record whose `text` field is a JSON string is
not rejected: Python iterates the string character by character, each
character is itself a string and is kept, so the resulting document text
is the characters joined by single spaces. -/
theorem c10_string_text_iterated (fields : List (String × Json)) (s : String) (t : Json)
    (hs : lookupField fields "text" = some (.str s))
    (ht : lookupField fields "title" = some t) :
    parseRecord (.obj fields) =
      .ok ⟨(lookupField fields "id").getD t, t,
        String.intercalate " " (s.data.map String.singleton)⟩ := by
  simp only [parseRecord, hs, Option.getD_some, textSentences, ht]

/-- Claim C10 witness: text "ab" becomes document text "a b". -/
theorem c10_string_text_iterated_witness :
    lookupField [("title", .str "T"), ("text", .str "ab")] "text" = some (.str "ab") ∧
    lookupField [("title", .str "T"), ("text", .str "ab")] "title" = some (Json.str "T") ∧
    parseRecord (.obj [("title", .str "T"), ("text", .str "ab")]) =
      .ok ⟨.str "T", .str "T", "a b"⟩ :=
  ⟨rfl, rfl,
    c10_string_text_iterated [("title", .str "T"), ("text", .str "ab")] "ab" (.str "T") rfl rfl⟩

/-- Claim C6 counterexample: a single file whose first line is a
parseable record without `title` and whose second line is a valid
title-bearing record: the loader returns 0 documents though the file has
1 syntactically valid, title-bearing line. -/
theorem c6_count_cex :
    (load_wikipedia_articles ["f"]
      (fun _ => [SrcLine.record (.obj [("text", .arr [.str "x"])]),
                 SrcLine.record (.obj [("title", .str "T")])])).length = 0 ∧
    ([SrcLine.record (.obj [("text", .arr [.str "x"])]),
      SrcLine.record (.obj [("title", .str "T")])].countP fun l => (lineDoc l).isSome) = 1 :=
  ⟨rfl, rfl⟩

/-- Claim C6 (amended): the loader's output order is deterministic —
files sorted lexicographically by full path (independent of enumeration
order), lines in file order — and the document count equals, per
resolved file, the number of valid title-bearing lines occurring before
the file's first aborting line (a parseable record that is not an
object, has a non-iterable `text`, or lacks `title`), the remainder of
each such file being skipped. -/
theorem c6_deterministic_order (paths paths' : List String) (disk : String → List SrcLine)
    (hperm : paths'.Perm paths) :
    load_wikipedia_articles paths' disk = load_wikipedia_articles paths disk ∧
    (load_wikipedia_articles paths disk).length =
      ((List.insertionSort (· ≤ ·) paths).map (fileDocCount ∘ disk)).sum := by
  constructor
  · unfold load_wikipedia_articles
    rw [insertionSort_eq_of_perm paths' paths hperm]
  · unfold load_wikipedia_articles
    rw [List.length_flatten, List.map_map]
    congr 1
    apply List.map_congr_left
    intro p _
    simp only [Function.comp_apply, fileDocCount]
    rw [processFile_eq, length_filterMap_eq]

/-- Claim C6 witness: two files given in either enumeration order load
identically, and the count decomposes per sorted file. -/
theorem c6_deterministic_order_witness :
    (["b", "a"].Perm ["a", "b"]) ∧
    load_wikipedia_articles ["b", "a"] exDisk = load_wikipedia_articles ["a", "b"] exDisk ∧
    (load_wikipedia_articles ["a", "b"] exDisk).length =
      ((List.insertionSort (· ≤ ·) ["a", "b"]).map (fileDocCount ∘ exDisk)).sum :=
  ⟨by decide, c6_deterministic_order ["a", "b"] ["b", "a"] exDisk (by decide)⟩

/-- Claim C3: given an embedding function applying a fixed per-text map,
batched embedding is independent of the chunk size (any two positive
chunk sizes give the same outcome), and whenever it yields a matrix the
row count equals the input text count. -/
theorem c3_chunk_independent (g : String → List Int) (f : List String → List (List Int))
    (texts : List String) (c₁ c₂ : Nat) (m : List (List Int))
    (h1 : 0 < c₁) (h2 : 0 < c₂) (hf : ∀ ts, f ts = ts.map g)
    (hm : embedAll texts f c₁ = .ok m) :
    embedAll texts f c₁ = embedAll texts f c₂ ∧ m.length = texts.length := by
  have e1 := embedAll_pointwise g f texts c₁ h1 hf
  have e2 := embedAll_pointwise g f texts c₂ h2 hf
  refine ⟨e1.trans e2.symm, ?_⟩
  rw [e1] at hm
  by_cases h : texts = []
  · rw [if_pos h] at hm
    exact absurd hm (by simp)
  · rw [if_neg h] at hm
    by_cases hw : uniformWidth (texts.map g) = true
    · rw [if_pos hw] at hm
      have hv := Except.ok.inj hm
      rw [← hv, List.length_map]
    · rw [if_neg hw] at hm
      exact absurd hm (by simp)

/-- Claim C3 witness: chunk sizes 1 and 2 agree on a two-text corpus and
the matrix has one row per text. -/
theorem c3_chunk_independent_witness :
    (0:Nat) < 1 ∧ (0:Nat) < 2 ∧
    embedAll ["x", "yz"] exF 1 = .ok [[1], [2]] ∧
    (embedAll ["x", "yz"] exF 1 = embedAll ["x", "yz"] exF 2 ∧
      ([[1], [2]] : List (List Int)).length = ["x", "yz"].length) :=
  ⟨by decide, by decide, rfl,
    c3_chunk_independent exG exF ["x", "yz"] 1 2 [[1], [2]] (by decide) (by decide)
      (fun _ => rfl) rfl⟩

/-- All rows produced by the per-chunk embedding calls, in order — the
arrays `np.vstack` is asked to stack. -/
def chunkRows (texts : List String) (f : List String → List (List Int)) (c : Nat) :
    List (List Int) :=
  ((chunksOf c texts).map f).flatten

/-- Claim C4: if the chunk outputs contain two rows of different widths
(e.g. width 4 in one chunk and width 5 in another), the build fails with
the dimension-mismatch error (the `np.vstack` `ValueError`, the spec's
`DimensionMismatchError`) before any index is constructed: `buildAll`
returns the error and never reaches `buildIndexFromMatrix`. -/
theorem c4_dim_mismatch (arts : List Document) (f : List String → List (List Int))
    (c : Nat) (r₁ r₂ : List Int)
    (h₁ : r₁ ∈ chunkRows (arts.map (·.text)) f c)
    (h₂ : r₂ ∈ chunkRows (arts.map (·.text)) f c)
    (hw : r₁.length ≠ r₂.length) :
    embedAll (arts.map (·.text)) f c = .error .dimMismatch ∧
    buildAll arts f c = .error .dimMismatch := by
  have huw : uniformWidth (chunkRows (arts.map (·.text)) f c) = false := by
    cases hu : uniformWidth (chunkRows (arts.map (·.text)) f c) with
    | false => rfl
    | true => exact absurd (uniformWidth_len _ hu r₁ h₁ r₂ h₂) hw
  have hne : ((chunksOf c (arts.map (·.text))).map f) ≠ [] := by
    intro hcon
    unfold chunkRows at h₁
    rw [hcon] at h₁
    simp at h₁
  have hemb : embedAll (arts.map (·.text)) f c = .error .dimMismatch := by
    unfold embedAll
    have hemp : ¬(((chunksOf c (arts.map (·.text))).map f).isEmpty = true) := by
      simp only [List.isEmpty_eq_true]
      exact hne
    rw [if_neg hemp]
    unfold vstack
    have huw' : uniformWidth ((chunksOf c (arts.map (·.text))).map f).flatten = false := huw
    rw [huw']
    rfl
  refine ⟨hemb, ?_⟩
  simp only [buildAll, hemb]

/-- Sample corpus for the dimension-mismatch scenario. -/
def exArtsB : List Document := [⟨.str "1", .str "1", "t"⟩, ⟨.str "2", .str "2", "u"⟩]

/-- Embedding function returning width 4 for text "t" and width 5
otherwise — inconsistent across chunks of size 1. -/
def exFBad : List String → List (List Int) :=
  fun ts => ts.map fun s => if s = "t" then [0, 0, 0, 0] else [0, 0, 0, 0, 0]

/-- Claim C4 witness: width-4 and width-5 rows from two size-1 chunks
abort the build with the dimension mismatch before index construction. -/
theorem c4_dim_mismatch_witness :
    ([0, 0, 0, 0] : List Int) ∈ chunkRows (exArtsB.map Document.text) exFBad 1 ∧
    ([0, 0, 0, 0, 0] : List Int) ∈ chunkRows (exArtsB.map Document.text) exFBad 1 ∧
    ([0, 0, 0, 0] : List Int).length ≠ ([0, 0, 0, 0, 0] : List Int).length ∧
    (embedAll (exArtsB.map Document.text) exFBad 1 = .error .dimMismatch ∧
      buildAll exArtsB exFBad 1 = .error .dimMismatch) :=
  ⟨by decide, by decide, by decide,
    c4_dim_mismatch exArtsB exFBad 1 [0, 0, 0, 0] [0, 0, 0, 0, 0] (by decide) (by decide)
      (by decide)⟩

/-- Claim C1: in any successfully built artifact bundle, the id list and
matrix are index-aligned with the loaded corpus — `ids[i]` is the id of
document `i` and matrix row `i` is the embedding of document `i`'s text —
the index stores exactly the matrix rows in order, and all lengths agree;
this is what `save` then persists. -/
theorem c1_alignment (g : String → List Int) (f : List String → List (List Int))
    (arts : List Document) (c : Nat) (i : Nat) (a : Artifacts)
    (hc : 0 < c) (hf : ∀ ts, f ts = ts.map g)
    (ha : buildAll arts f c = .ok a) :
    a.ids[i]? = (arts[i]?).map Document.id ∧
    a.matrix[i]? = (arts[i]?).map (g ∘ Document.text) ∧
    a.index.vecs = a.matrix ∧
    a.ids.length = arts.length ∧ a.matrix.length = arts.length := by
  have he := embedAll_pointwise g f (arts.map (·.text)) c hc hf
  by_cases h0 : arts.map (·.text) = ([] : List String)
  · rw [if_pos h0] at he
    simp only [buildAll, he] at ha
    exact absurd ha (by simp)
  · rw [if_neg h0] at he
    by_cases hw : uniformWidth ((arts.map (·.text)).map g) = true
    · rw [if_pos hw] at he
      have harts : arts ≠ [] := fun hnil => h0 (by rw [hnil]; rfl)
      have hlen : 0 < ((arts.map (·.text)).map g).length := by
        simp only [List.length_map]
        exact List.length_pos.mpr harts
      have hb : buildIndexFromMatrix ((arts.map (·.text)).map g) =
          .ok ⟨((((arts.map (·.text)).map g)).headD []).length, (arts.map (·.text)).map g⟩ := by
        unfold buildIndexFromMatrix
        rw [if_pos hlen]
      simp only [buildAll, he, hb, Except.ok.injEq] at ha
      subst ha
      refine ⟨?_, ?_, rfl, ?_, ?_⟩
      · simp [List.getElem?_map]
      · simp [List.map_map, List.getElem?_map]
      · simp
      · simp
    · rw [if_neg hw] at he
      simp only [buildAll, he] at ha
      exact absurd ha (by simp)

/-- Claim C1 witness: the two-document sample corpus builds the sample
artifact bundle, aligned at position 1. -/
theorem c1_alignment_witness :
    (0:Nat) < 1000 ∧
    buildAll exArts exF 1000 = .ok exArtifacts ∧
    (exArtifacts.ids[1]? = (exArts[1]?).map Document.id ∧
      exArtifacts.matrix[1]? = (exArts[1]?).map (exG ∘ Document.text) ∧
      exArtifacts.index.vecs = exArtifacts.matrix ∧
      exArtifacts.ids.length = exArts.length ∧ exArtifacts.matrix.length = exArts.length) :=
  ⟨by decide, rfl,
    c1_alignment exG exF exArts 1000 1 exArtifacts (by decide) (fun _ => rfl) rfl⟩
